import Mathlib

/-!
Verification development for the notion-anki-sync repository.

The development shallowly embeds the two core components of the
repository:

* `src/notion_sync_addon/parser.py` — the streaming markup parser
  (`NoteDataExtractor`) that turns one toggle-block HTML fragment into an
  Anki note record.  Python's `HTMLParser` tokenizer is taken as given:
  the embedding works on the stream of start-tag / data / end-tag events
  that `feed` delivers to the handlers, and each handler is translated
  line by line.  The filesystem (image reads) is modelled as a function
  `String → Option (List Nat)`; `none` models an unreadable file.
  Exceptions raised by the Python code are modelled with `Except`.

* `src/notion_sync_addon/notion_client.py` — the bounded-retry export
  client (`enqueue_export_task`, `get_task_result`).  The network is
  modelled as an oracle `Nat → Resp` giving the server's response to the
  i-th request; `while` loops are modelled with an explicit fuel
  parameter so that non-termination of the source loop is observable as
  `none` for every fuel value.

* `normalize_block_id` from `src/notion_sync_addon/helpers.py` (the
  textually identical copy lives in `src/notion_anki_sync/sync.py`).
-/

/-! ### Python string primitives used by the source -/

/-- Value of a hex digit, upper or lower case (as accepted by
`urllib.parse.unquote`). -/
def hexDigitVal (c : Char) : Option Nat :=
  if '0' ≤ c ∧ c ≤ '9' then some (c.toNat - '0'.toNat)
  else if 'a' ≤ c ∧ c ≤ 'f' then some (c.toNat - 'a'.toNat + 10)
  else if 'A' ≤ c ∧ c ≤ 'F' then some (c.toNat - 'A'.toNat + 10)
  else none

/-- Percent-decoding of `urllib.parse.unquote`, on the ASCII plane: a
valid `%XY` pair decodes to the byte's character, anything else passes
through unchanged. -/
def unquoteChars : List Char → List Char
  | [] => []
  | '%' :: a :: b :: rest =>
    match hexDigitVal a, hexDigitVal b with
    | some ha, some hb => Char.ofNat (16 * ha + hb) :: unquoteChars rest
    | _, _ => '%' :: unquoteChars (a :: b :: rest)
  | c :: rest => c :: unquoteChars rest

/-- Model of `urllib.parse.unquote` (ASCII subset). -/
def pyUnquote (s : String) : String := ⟨unquoteChars s.data⟩

/-- Whitespace characters stripped by Python's `str.strip()` (ASCII). -/
def isPySpace (c : Char) : Bool :=
  c = ' ' || c = '\t' || c = '\n' || c = '\r' || c = '\x0b' || c = '\x0c'

/-- Model of Python's `str.strip()`. -/
def pyStrip (s : String) : String :=
  ⟨((s.data.dropWhile isPySpace).reverse.dropWhile isPySpace).reverse⟩

/-- Model of Python's `str.split(sep)` for a one-character separator. -/
def splitOnChar (sep : Char) : List Char → List (List Char)
  | [] => [[]]
  | c :: rest =>
    if c = sep then [] :: splitOnChar sep rest
    else
      match splitOnChar sep rest with
      | g :: gs => (c :: g) :: gs
      | [] => [[c]]

/-- True when `pre` is an initial run of `cs`. -/
def leadMatch : List Char → List Char → Bool
  | [], _ => true
  | _ :: _, [] => false
  | p :: ps, c :: cs => p == c && leadMatch ps cs

/-- Model of Python's `str.startswith`. -/
def pyStartsWith (s pre : String) : Bool := leadMatch pre.data s.data

/-- Model of `''.join(...)` over a list of strings. -/
def concatStrs : List String → String
  | [] => ""
  | s :: rest => s ++ concatStrs rest

/-- Model of `sep.join(...)`. -/
def joinSep (sep : String) : List String → String
  | [] => ""
  | [s] => s
  | s :: rest => s ++ sep ++ joinSep sep rest

/-- One pass of Python's `str.replace`: replace non-overlapping
occurrences of `pat` left to right.  `fuel` bounds the recursion; any
fuel of at least the length of the subject list gives `str.replace`'s
result for a non-empty `pat`. -/
def replaceAux (pat rep : List Char) : Nat → List Char → List Char
  | _, [] => []
  | 0, cs => cs
  | n + 1, c :: cs =>
    if leadMatch pat (c :: cs) then
      rep ++ replaceAux pat rep n ((c :: cs).drop pat.length)
    else c :: replaceAux pat rep n cs

/-- Model of Python's `str.replace(pat, rep)` (all occurrences). -/
def pyReplace (s pat rep : String) : String :=
  if pat = "" then
    ⟨rep.data ++ s.data.foldr (fun c acc => c :: rep.data ++ acc) []⟩
  else ⟨replaceAux pat.data rep.data s.data.length s.data⟩

/-- Characters kept by the image-name derivation, Python `str.isalnum`
(ASCII subset). -/
def filterAlnum (s : String) : String := ⟨s.data.filter Char.isAlphanum⟩

/-- Model of `pathlib.PurePath.name`: the part after the last slash. -/
def pathName (s : String) : String :=
  ⟨((splitOnChar '/' s.data).getLast?).getD []⟩

/-! ### Data model of `parser.py` -/

/-- Embedding of the `AnkiImage` dataclass.  `abs_path` is a plain
string (the joined path); `data` is the byte list read from the
filesystem model. -/
structure AnkiImage where
  src : String
  filename : String
  absPath : String
  data : List Nat
deriving DecidableEq, Repr

/-- Embedding of the `AnkiNote` dataclass. -/
structure AnkiNote where
  front : String
  back : Option String := none
  tags : Option (List String) := none
  source : Option String := none
  images : Option (List AnkiImage) := none
deriving DecidableEq, Repr

/-- The `note_data` dict of `NoteDataExtractor`.  A field is `none`
exactly when the corresponding key is absent from the dict ('back' is
only ever written inside `get_data`, so it is not tracked here). -/
structure NoteData where
  front : Option String := none
  tags : Option (List String) := none
  images : Option (List AnkiImage) := none
deriving DecidableEq, Repr

/-- Mutable state of a `NoteDataExtractor` instance (the fields set in
`__init__`). -/
structure ExtractorState where
  baseDir : String
  noteData : NoteData
  buffer : List String
  collectingStarted : Bool
  skippedBefore : Nat
  captureTag : Bool
  inLatex : Bool
  skippedInLatex : Nat
  latexTags : Option (String × String)
  clozesCount : Nat
deriving DecidableEq, Repr

/-- Fresh extractor state, as built by `NoteDataExtractor.__init__`. -/
def mkInit (baseDir : String) : ExtractorState :=
  { baseDir := baseDir
    noteData := {}
    buffer := []
    collectingStarted := false
    skippedBefore := 0
    captureTag := false
    inLatex := false
    skippedInLatex := 0
    latexTags := none
    clozesCount := 0 }

/-- One event delivered by Python's `HTMLParser.feed` to the extractor's
handlers. -/
inductive Event
  | startTag (tag : String) (attrs : List (String × Option String))
  | textData (d : String)
  | endTag (tag : String)
deriving DecidableEq, Repr

/-- True for start-tag events. -/
def Event.isStart : Event → Bool
  | .startTag _ _ => true
  | _ => false

/-- Exceptions the extractor can raise.  `missingSrc` is the
`assert src` failure on an `img` without a usable `src`;
`imageReadError` is `Path.read_bytes` failing; `indexError` is
`self._buffer[-1]` on an empty buffer in `get_data`; `assertionError`
is the `assert self._latex_tags` in `handle_endtag`. -/
inductive ParseError
  | missingSrc
  | imageReadError (path : String)
  | indexError
  | assertionError
deriving DecidableEq, Repr

/-! ### Constants of `NoteDataExtractor` -/

/-- The `ALLOWED_TAGS` set. -/
def ALLOWED_TAGS : List String :=
  ["h1", "h2", "h3", "p", "strong", "summary", "em", "del", "pre",
   "code", "mark", "ul", "ol", "li", "div", "span", "blockquote", "hr",
   "figure", "a", "img"]

/-- The `SKIP_ATTRIBUTES` set. -/
def SKIP_ATTRIBUTES : List String := ["id"]

/-- Notion inline LaTeX class. -/
def INLINE_LATEX_CLASS : String := "notion-text-equation-token"

/-- Notion block LaTeX class. -/
def BLOCK_LATEX_CLASS : String := "equation"

/-- Anki block LaTeX delimiters. -/
def ANKI_BLOCK_LATEX_TAGS : String × String := ("\\[", "\\]")

/-- Anki inline LaTeX delimiters. -/
def ANKI_INLINE_LATEX_TAGS : String × String := ("\\(", "\\)")

/-! ### The event handlers -/

/-- Embedding of `NoteDataExtractor._get_attr_by_name`.  Python returns
the (optional) value of the first attribute with the given name, so an
attribute present with value `None` is indistinguishable from an absent
one, exactly as in the source. -/
def getAttrByName (name : String) : List (String × Option String) → Option String
  | [] => none
  | p :: rest => if p.1 = name then p.2 else getAttrByName name rest

/-- Embedding of `NoteDataExtractor._check_if_latex`. -/
def checkIfLatex (tag : String) (attrs : List (String × Option String)) :
    Option (String × String) :=
  let cls := getAttrByName "class" attrs
  if tag = "span" ∨ tag = "figure" then
    if cls = some BLOCK_LATEX_CLASS then some ANKI_BLOCK_LATEX_TAGS
    else if cls = some INLINE_LATEX_CLASS then some ANKI_INLINE_LATEX_TAGS
    else none
  else none

/-- How Python's f-string renders an attribute value (`None` prints as
the string `None`). -/
def attrValueStr : Option String → String
  | some s => s
  | none => "None"

/-- The `attrs_and_values` string built in `handle_starttag`. -/
def renderAttrs (attrs : List (String × Option String)) : String :=
  joinSep " "
    ((attrs.filter (fun p => !(SKIP_ATTRIBUTES.contains p.1))).map
      (fun p => p.1 ++ "=\"" ++ attrValueStr p.2 ++ "\""))

/-- The token `handle_starttag` appends to the buffer for an emitted
tag. -/
def renderTag (tag : String) (attrs : List (String × Option String)) : String :=
  let av := renderAttrs attrs
  if av = "" then "<" ++ tag ++ ">" else "<" ++ tag ++ " " ++ av ++ ">"

/-- The image-harvesting block at the end of `handle_starttag` (the
`if tag == 'img'` part).  `fs` is the filesystem model; `none` from `fs`
models `Path.read_bytes` raising. -/
def handleImg (fs : String → Option (List Nat)) (st : ExtractorState)
    (tag : String) (attrs : List (String × Option String)) :
    Except ParseError ExtractorState :=
  if tag = "img" then
    match getAttrByName "src" attrs with
    | none => .error .missingSrc
    | some src =>
      if src = "" then .error .missingSrc
      else
        let absPath := st.baseDir ++ "/" ++ pyUnquote src
        match fs absPath with
        | none => .error (.imageReadError absPath)
        | some bytes =>
          let img : AnkiImage :=
            { src := src
              filename := filterAlnum src ++ "_" ++ pathName absPath
              absPath := absPath
              data := bytes }
          .ok { st with noteData :=
                  { st.noteData with
                    images := some ((st.noteData.images.getD []) ++ [img]) } }
  else .ok st

/-- Embedding of `NoteDataExtractor.handle_starttag`. -/
def handleStarttag (fs : String → Option (List Nat)) (st : ExtractorState)
    (tag : String) (attrs : List (String × Option String)) :
    Except ParseError ExtractorState :=
  if tag = "summary" then
    .ok { st with collectingStarted := true, captureTag := true }
  else if st.collectingStarted = false then
    .ok { st with skippedBefore := st.skippedBefore + 1 }
  else if st.inLatex = true then
    let st1 := { st with skippedInLatex := st.skippedInLatex + 1 }
    if tag = "annotation" then .ok { st1 with captureTag := true }
    else .ok st1
  else if ¬(tag ∈ ALLOWED_TAGS) ∨ st.inLatex = true then
    .ok { st with captureTag := false }
  else
    let st1 :=
      match checkIfLatex tag attrs with
      | some lt =>
        { st with latexTags := some lt
                  buffer := st.buffer ++ [lt.1]
                  captureTag := false
                  inLatex := true }
      | none =>
        { st with captureTag := true
                  buffer := st.buffer ++ [renderTag tag attrs] }
    handleImg fs st1 tag attrs

/-- The tag list built by `handle_data` from a leading hash chunk:
`[tag.strip() for tag in data.split('#') if tag.strip()]`. -/
def splitTags (d : String) : List String :=
  ((splitOnChar '#' d.data).map (fun cs => pyStrip ⟨cs⟩)).filter (fun s => ¬(s = ""))

/-- Embedding of `NoteDataExtractor.handle_data`. -/
def handleData (st : ExtractorState) (d : String) : ExtractorState :=
  if st.captureTag = false then st
  else if pyStartsWith d "#" = true ∧ st.noteData.tags = none ∧ st.inLatex = false then
    { st with noteData := { st.noteData with tags := some (splitTags d) } }
  else { st with buffer := st.buffer ++ [d] }

/-- The cloze opening marker written for the n-th `<code>` token. -/
def mkCloze (n : Nat) : String := "\x7b\x7bc" ++ Nat.repr n ++ "::"

/-- The cloze closing marker written for a `</code>` token. -/
def clozeClose : String := "\x7d\x7d"

/-- The cloze-rewriting loop of `handle_endtag` for `</summary>`:
walk the buffer, replace each literal `<code>` token by the next
sequentially numbered cloze opener (continuing from `n`) and each
literal `</code>` token by the closer.  Returns the rewritten buffer
and the final cloze count. -/
def clozeScan : List String → Nat → List String × Nat
  | [], n => ([], n)
  | s :: rest, n =>
    if s = "<code>" then
      let r := clozeScan rest (n + 1)
      (mkCloze (n + 1) :: r.1, r.2)
    else if s = "</code>" then
      let r := clozeScan rest n
      (clozeClose :: r.1, r.2)
    else
      let r := clozeScan rest n
      (s :: r.1, r.2)

/-- Embedding of `NoteDataExtractor.handle_endtag`. -/
def handleEndtag (st : ExtractorState) (tag : String) :
    Except ParseError ExtractorState :=
  if st.inLatex = true ∧ st.skippedInLatex = 0 then
    .ok { st with inLatex := false, captureTag := true }
  else
    let st1 := if st.inLatex then
                 { st with skippedInLatex := st.skippedInLatex - 1 }
               else st
    if st1.captureTag = false then .ok st1
    else if tag = "summary" then
      let scanned := clozeScan st1.buffer st1.clozesCount
      .ok { st1 with
              clozesCount := scanned.2
              noteData := { st1.noteData with front := some (concatStrs scanned.1) }
              buffer := [] }
    else if tag = "annotation" ∧ st1.inLatex = true then
      match st1.latexTags with
      | none => .error .assertionError
      | some lt =>
        .ok { st1 with buffer := st1.buffer ++ [lt.2], captureTag := false }
    else
      .ok { st1 with buffer := st1.buffer ++ ["</" ++ tag ++ ">"] }

/-- Dispatch one feed event to the matching handler. -/
def processEvent (fs : String → Option (List Nat)) (st : ExtractorState) :
    Event → Except ParseError ExtractorState
  | .startTag tag attrs => handleStarttag fs st tag attrs
  | .textData d => .ok (handleData st d)
  | .endTag tag => handleEndtag st tag

/-- Run the extractor over a whole event stream (the body of `feed`). -/
def processEvents (fs : String → Option (List Nat)) :
    ExtractorState → List Event → Except ParseError ExtractorState
  | st, [] => .ok st
  | st, e :: es => (processEvent fs st e).bind fun st1 => processEvents fs st1 es

/-! ### `get_data` -/

/-- Python's `s in '\n\r'` (substring test): the strings popped by the
trailing-cleanup loop of `get_data` are exactly the substrings of the
two-character string, i.e. `''`, `'\n'`, `'\r'` and `'\n\r'`. -/
def isNewlineToken (s : String) : Bool :=
  s = "" || s = "\n" || s = "\r" || s = "\n\r"

/-- The `while self._buffer[-1] in '\n\r': self._buffer.pop()` loop.
Returns `none` when the loop raises `IndexError`, which happens exactly
when dropping the trailing newline-like tokens exhausts the buffer
(including the initially empty buffer). -/
def stripTrailing (l : List String) : Option (List String) :=
  let r := l.reverse.dropWhile isNewlineToken
  if r = [] then none else some r.reverse

/-- The image `src` rewriting loop of `get_data`.  The loop also
re-assigns `image.filename` to the exact value it already holds, so the
state mutation is dropped here. -/
def rewriteImages : List AnkiImage → String → String
  | [], back => back
  | img :: rest, back =>
    rewriteImages rest
      (pyReplace back img.src (filterAlnum img.src ++ "_" ++ pathName img.absPath))

/-- One attempted match of the `EMPTY_P_RE` regex `<p [^>]*></p>` at the
head of the character list: literal `<p `, then a maximal run of
non-`>` characters, then literal `></p>`.  Returns the remainder after
the match. -/
def matchEmptyP (cs : List Char) : Option (List Char) :=
  match cs with
  | '<' :: 'p' :: ' ' :: rest =>
    match rest.dropWhile (fun c => ¬(c = '>')) with
    | '>' :: '<' :: '/' :: 'p' :: '>' :: tail => some tail
    | _ => none
  | _ => none

/-- The scanning loop of `re.sub` for `EMPTY_P_RE` (leftmost,
non-overlapping).  `fuel` bounds the recursion; any fuel of at least
the list length gives `re.sub`'s result. -/
def emptyPSubAux : Nat → List Char → List Char
  | 0, cs => cs
  | _ + 1, [] => []
  | n + 1, c :: cs =>
    match matchEmptyP (c :: cs) with
    | some rest => emptyPSubAux n rest
    | none => c :: emptyPSubAux n cs

/-- Embedding of `EMPTY_P_RE.sub('', back)`. -/
def emptyPSub (s : String) : String := ⟨emptyPSubAux s.data.length s.data⟩

/-- Embedding of `NoteDataExtractor.get_data`.  `.ok none` models the
`return None` after the caught `TypeError` (which in
`AnkiNote(**self.note_data)` fires exactly when the required `front`
key is missing); `.error` models an uncaught exception. -/
def getData (st : ExtractorState) : Except ParseError (Option AnkiNote) :=
  let backE : Except ParseError (Option String) :=
    if 0 < st.clozesCount then .ok none
    else
      match stripTrailing st.buffer with
      | none => .error .indexError
      | some buf =>
        let buf2 := if st.skippedBefore = 0 then ([] : List String)
                    else buf.take (buf.length - st.skippedBefore)
        let b0 := concatStrs buf2
        let b1 := rewriteImages (st.noteData.images.getD []) b0
        let b2 := emptyPSub b1
        let b3 := pyReplace (pyReplace b2 "class=\"\"" "") "<p >" "<p>"
        .ok (some b3)
  match backE with
  | .error e => .error e
  | .ok back =>
    match st.noteData.front with
    | none => .ok none
    | some f =>
      .ok (some { front := f
                  back := back
                  tags := st.noteData.tags
                  source := none
                  images := st.noteData.images })

/-- Embedding of `NoteDataExtractor.extract_note`: feed the fragment's
events through a fresh extractor, then collect the note. -/
def extractNote (fs : String → Option (List Nat)) (baseDir : String)
    (es : List Event) : Except ParseError (Option AnkiNote) :=
  (processEvents fs (mkInit baseDir) es).bind getData

/-! ### The Notion export client (`notion_client.py`) -/

/-- Error taxonomy of `NotionClientError` as raised by the client, one
constructor per distinct `raise` site. -/
inductive NotionErr
  | requestError
  | invalidToken
  | cannotSubmit
  | apiError (msg : String)
  | cannotGetResult
deriving DecidableEq, Repr

/-- The `NOTION_MAX_RETRIES` constant. -/
def NOTION_MAX_RETRIES : Nat := 600

/-- Classes of server responses to one `enqueueTask` POST, one
constructor per branch of `enqueue_export_task`'s loop body:
a connection-level exception, HTTP 401, an HTTP 5xx, a non-401 non-5xx
response whose body fails JSON decoding, and a non-401 non-5xx response
with a JSON body carrying a task id. -/
inductive EnqueueResp
  | connError
  | status401
  | status5xx
  | okBadJson
  | okJson (taskId : String)
deriving DecidableEq, Repr

/-- Embedding of the `while attempts_count < NOTION_MAX_RETRIES` loop of
`enqueue_export_task`.  `responses i` is the server's answer to the
i-th request; `fuel` bounds the number of loop iterations the model
executes, and `none` means the loop was still running when the fuel ran
out (so a result of `none` for every fuel is a non-terminating source
loop).  Note the `okBadJson` branch mirrors the source exactly: a JSON
decode failure is merely logged and does not touch `attempts_count`. -/
def enqueueLoop (responses : Nat → EnqueueResp) :
    Nat → Nat → Nat → Option (Except NotionErr String)
  | 0, _, _ => none
  | fuel + 1, attempts, i =>
    if attempts < NOTION_MAX_RETRIES then
      match responses i with
      | .connError => some (.error .requestError)
      | .status401 => some (.error .invalidToken)
      | .status5xx => enqueueLoop responses fuel (attempts + 1) (i + 1)
      | .okBadJson => enqueueLoop responses fuel attempts (i + 1)
      | .okJson tid => some (.ok tid)
    else some (.error .cannotSubmit)

/-- Embedding of `enqueue_export_task` (page id and payload omitted:
they do not influence control flow). -/
def enqueueExportTask (responses : Nat → EnqueueResp) (fuel : Nat) :
    Option (Except NotionErr String) :=
  enqueueLoop responses fuel 0 0

/-- Classes of server responses to one `getTasks` POST, one constructor
per branch of `get_task_result`'s loop body: a connection-level
exception, a JSON decode failure, a JSON body without `results`, a
first result carrying `error`, a first result carrying a `status` with
its `type` and `exportURL` fields, and a first result with neither
key. -/
inductive PollResp
  | connError
  | badJson
  | noResults
  | errorResult (msg : String)
  | statusResult (type_ : String) (exportURL : String)
  | neitherKey
deriving DecidableEq, Repr

/-- Embedding of the polling loop of `get_task_result`.  Unlike the
enqueue loop, every non-returning iteration ends in
`attempts_count += 1`, so the loop is genuinely bounded and the
remaining-attempts count itself is the fuel.  The second component of
the result is the total number of requests issued (the model threads
the request index `i` so the oracle can answer per request). -/
def pollLoop (responses : Nat → PollResp) :
    Nat → Nat → Except NotionErr (String × Nat)
  | 0, _ => .error .cannotGetResult
  | remaining + 1, i =>
    match responses i with
    | .connError => .error .requestError
    | .badJson => pollLoop responses remaining (i + 1)
    | .noResults => pollLoop responses remaining (i + 1)
    | .errorResult msg => .error (.apiError msg)
    | .statusResult type_ exportURL =>
      if type_ = "complete" then .ok (exportURL, i + 1)
      else pollLoop responses remaining (i + 1)
    | .neitherKey => pollLoop responses remaining (i + 1)

/-- Embedding of `get_task_result`. -/
def getTaskResult (responses : Nat → PollResp) : Except NotionErr (String × Nat) :=
  pollLoop responses NOTION_MAX_RETRIES 0

/-! ### `normalize_block_id` (`helpers.py`, and verbatim in `sync.py`) -/

/-- A lowercase hex digit, the character class `[0-9a-f]` of
`BLOCK_ID_RE`. -/
def isHexChar (c : Char) : Bool :=
  ('0' ≤ c && c ≤ '9') || ('a' ≤ c && c ≤ 'f')

/-- Consume exactly `n` hex digits from the front of the list. -/
def hexRun : Nat → List Char → Option (List Char)
  | 0, cs => some cs
  | _ + 1, [] => none
  | n + 1, c :: cs => if isHexChar c then hexRun n cs else none

/-- Consume one dash from the front of the list. -/
def dashChar : List Char → Option (List Char)
  | [] => none
  | c :: cs => if c = '-' then some cs else none

/-- Consume the dashed-UUID shape `8-4-4-4-12` from the front of the
list. -/
def chompId (cs : List Char) : Option (List Char) :=
  (hexRun 8 cs).bind fun r1 =>
  (dashChar r1).bind fun r2 =>
  (hexRun 4 r2).bind fun r3 =>
  (dashChar r3).bind fun r4 =>
  (hexRun 4 r4).bind fun r5 =>
  (dashChar r5).bind fun r6 =>
  (hexRun 4 r6).bind fun r7 =>
  (dashChar r7).bind fun r8 =>
  hexRun 12 r8

/-- Embedding of `BLOCK_ID_RE.match(block_id)`: `re.match` anchors at
the start only, so it succeeds exactly when the dashed-UUID shape is a
prefix of the string. -/
def blockIdMatch (s : String) : Bool := (chompId s.data).isSome

/-- Embedding of `normalize_block_id`. -/
def normalize_block_id (s : String) : String :=
  if blockIdMatch s then s
  else
    (⟨s.data.take 8⟩ : String) ++ "-" ++ (⟨(s.data.drop 8).take 4⟩ : String)
      ++ "-" ++ (⟨(s.data.drop 12).take 4⟩ : String)
      ++ "-" ++ (⟨(s.data.drop 16).take 4⟩ : String)
      ++ "-" ++ (⟨s.data.drop 20⟩ : String)

/-! ### Lemmas about `normalize_block_id` -/

lemma hexRun_append (xs rest : List Char) (h : xs.all isHexChar = true) :
    hexRun xs.length (xs ++ rest) = some rest := by
  induction xs with
  | nil => rfl
  | cons c cs ih =>
    simp only [List.all_cons, Bool.and_eq_true] at h
    simpa [hexRun, h.1] using ih h.2

lemma hexRun_eat (n : Nat) (a rest : List Char) (ha : a.length = n)
    (hx : a.all isHexChar = true) : hexRun n (a ++ rest) = some rest := by
  subst ha; exact hexRun_append a rest hx

lemma dashChar_cons (x : List Char) : dashChar ('-' :: x) = some x := by
  simp [dashChar]

lemma all_sub (l m : List Char) (hsub : l ⊆ m) (h : m.all isHexChar = true) :
    l.all isHexChar = true := by
  rw [List.all_eq_true] at *
  exact fun x hx => h x (hsub hx)

lemma blockIdMatch_undashed (s : String) (hlen : s.data.length = 32)
    (hhex : s.data.all isHexChar = true) : blockIdMatch s = false := by
  have h8 : hexRun 8 s.data = some (s.data.drop 8) := by
    have h := hexRun_eat 8 (s.data.take 8) (s.data.drop 8)
      (by rw [List.length_take, hlen]; omega)
      (all_sub _ _ (List.take_subset 8 s.data) hhex)
    rwa [List.take_append_drop] at h
  obtain ⟨c, cs, hcons⟩ : ∃ c cs, s.data.drop 8 = c :: cs := by
    have hl : (s.data.drop 8).length = 24 := by rw [List.length_drop, hlen]
    cases hd : s.data.drop 8 with
    | nil => rw [hd] at hl; simp at hl
    | cons c cs => exact ⟨c, cs, rfl⟩
  have hc : isHexChar c = true :=
    (List.all_eq_true.mp hhex) c
      (List.drop_subset 8 s.data (hcons ▸ List.mem_cons_self c cs))
  have hcd : ¬(c = '-') := by
    intro he; rw [he] at hc; exact absurd hc (by decide)
  simp [blockIdMatch, chompId, h8, hcons, dashChar, hcd]

lemma chompId_dashed (a b c d e : List Char)
    (ha : a.length = 8) (hab : a.all isHexChar = true)
    (hb : b.length = 4) (hbb : b.all isHexChar = true)
    (hc : c.length = 4) (hcb : c.all isHexChar = true)
    (hd : d.length = 4) (hdb : d.all isHexChar = true)
    (he : e.length = 12) (heb : e.all isHexChar = true) :
    chompId (a ++ '-' :: (b ++ '-' :: (c ++ '-' :: (d ++ '-' :: e)))) = some [] := by
  have hlast : hexRun 12 e = some [] := by
    have h := hexRun_eat 12 e [] he heb
    rwa [List.append_nil] at h
  unfold chompId
  rw [hexRun_eat 8 a _ ha hab]
  simp only [Option.some_bind]
  rw [dashChar_cons]
  simp only [Option.some_bind]
  rw [hexRun_eat 4 b _ hb hbb]
  simp only [Option.some_bind]
  rw [dashChar_cons]
  simp only [Option.some_bind]
  rw [hexRun_eat 4 c _ hc hcb]
  simp only [Option.some_bind]
  rw [dashChar_cons]
  simp only [Option.some_bind]
  rw [hexRun_eat 4 d _ hd hdb]
  simp only [Option.some_bind]
  rw [dashChar_cons]
  simp only [Option.some_bind]
  rw [hlast]

/-- C6: for every valid dashed-or-undashed 32-hex-character identifier,
`normalize_block_id` is idempotent.  The dashed side is stated as
`blockIdMatch s = true` (the exact guard the source tests); the
undashed side as a 32-character all-hex string. -/
theorem C6_normalize_idempotent (s : String)
    (h : (s.data.length = 32 ∧ s.data.all isHexChar = true) ∨ blockIdMatch s = true) :
    normalize_block_id (normalize_block_id s) = normalize_block_id s := by
  rcases h with ⟨hlen, hhex⟩ | hmatch
  · have hfalse : blockIdMatch s = false := blockIdMatch_undashed s hlen hhex
    have hns : normalize_block_id s =
        (⟨s.data.take 8⟩ : String) ++ "-" ++ (⟨(s.data.drop 8).take 4⟩ : String)
          ++ "-" ++ (⟨(s.data.drop 12).take 4⟩ : String)
          ++ "-" ++ (⟨(s.data.drop 16).take 4⟩ : String)
          ++ "-" ++ (⟨s.data.drop 20⟩ : String) := by
      simp [normalize_block_id, hfalse]
    have hdata : (normalize_block_id s).data =
        s.data.take 8 ++ '-' :: ((s.data.drop 8).take 4 ++ '-' ::
          ((s.data.drop 12).take 4 ++ '-' :: ((s.data.drop 16).take 4 ++ '-' ::
            s.data.drop 20))) := by
      rw [hns]
      simp [String.data_append]
    have hmatch2 : blockIdMatch (normalize_block_id s) = true := by
      rw [blockIdMatch, hdata, chompId_dashed]
      · rfl
      · rw [List.length_take, hlen]; omega
      · exact all_sub _ _ (List.take_subset 8 s.data) hhex
      · rw [List.length_take, List.length_drop, hlen]; omega
      · exact all_sub _ _ (fun x hx =>
          List.drop_subset 8 s.data (List.take_subset 4 _ hx)) hhex
      · rw [List.length_take, List.length_drop, hlen]; omega
      · exact all_sub _ _ (fun x hx =>
          List.drop_subset 12 s.data (List.take_subset 4 _ hx)) hhex
      · rw [List.length_take, List.length_drop, hlen]; omega
      · exact all_sub _ _ (fun x hx =>
          List.drop_subset 16 s.data (List.take_subset 4 _ hx)) hhex
      · rw [List.length_drop, hlen]
      · exact all_sub _ _ (List.drop_subset 20 s.data) hhex
    rw [normalize_block_id, if_pos hmatch2]
  · simp [normalize_block_id, hmatch]

/-- C6 witness: the normalization of the docstring's example id is
idempotent; the hypotheses are discharged by computation on the
concrete undashed identifier. -/
theorem C6_witness :
    normalize_block_id (normalize_block_id "d151217ae85f4e79a05406f7db2bb0da")
      = normalize_block_id "d151217ae85f4e79a05406f7db2bb0da" :=
  C6_normalize_idempotent "d151217ae85f4e79a05406f7db2bb0da" (Or.inl (by decide))

/-! ### Claims about the export client -/

lemma pollLoop_step (responses : Nat → PollResp) (rem i : Nat) (t u : String)
    (h : responses i = .statusResult t u) (ht : ¬(t = "complete")) :
    pollLoop responses (rem + 1) i = pollLoop responses rem (i + 1) := by
  simp [pollLoop, h, ht]

/-- C7: if the first five status responses report a non-terminal
`progress` type and the sixth reports `complete`, the poll loop returns
the sixth response's download URL having issued exactly six requests;
responses beyond the sixth are unconstrained, so no further request can
influence the result. -/
theorem C7_poll_stops_on_complete (responses : Nat → PollResp)
    (purl : Nat → String) (url : String)
    (hprog : ∀ i, i < 5 → responses i = .statusResult "progress" (purl i))
    (hdone : responses 5 = .statusResult "complete" url) :
    getTaskResult responses = .ok (url, 6) := by
  have np : ¬(("progress" : String) = "complete") := by decide
  show pollLoop responses 600 0 = .ok (url, 6)
  rw [show (600 : Nat) = 599 + 1 from rfl,
      pollLoop_step responses 599 0 _ _ (hprog 0 (by omega)) np,
      show (599 : Nat) = 598 + 1 from rfl,
      pollLoop_step responses 598 1 _ _ (hprog 1 (by omega)) np,
      show (598 : Nat) = 597 + 1 from rfl,
      pollLoop_step responses 597 2 _ _ (hprog 2 (by omega)) np,
      show (597 : Nat) = 596 + 1 from rfl,
      pollLoop_step responses 596 3 _ _ (hprog 3 (by omega)) np,
      show (596 : Nat) = 595 + 1 from rfl,
      pollLoop_step responses 595 4 _ _ (hprog 4 (by omega)) np,
      show (595 : Nat) = 594 + 1 from rfl]
  simp [pollLoop, hdone]

/-- Concrete six-response poll oracle for the C7 witness. -/
def c7Responses : Nat → PollResp := fun i =>
  if i < 5 then .statusResult "progress" ""
  else .statusResult "complete" "https://example.invalid/archive.zip"

/-- C7 witness: the theorem applied to a concrete oracle that reports
`progress` five times and then `complete`. -/
theorem C7_witness :
    getTaskResult c7Responses = .ok ("https://example.invalid/archive.zip", 6) :=
  C7_poll_stops_on_complete c7Responses (fun _ => "") _ (by decide) (by decide)

/-- C8 (code bug): against a server that always answers HTTP 200 with an
undecodable JSON body, the enqueue loop never terminates — the JSON
decode failure is only logged and `attempts_count` is not incremented,
so the `attempts_count < NOTION_MAX_RETRIES` guard never becomes false.
For every amount of fuel the fuelled model is still running (`none`),
whatever request index it has reached. -/
theorem C8_enqueue_unbounded_on_bad_json (fuel i : Nat) :
    enqueueLoop (fun _ => .okBadJson) fuel 0 i = none := by
  induction fuel generalizing i with
  | zero => rfl
  | succ n ih =>
    have h0 : (0 : Nat) < NOTION_MAX_RETRIES := by decide
    simp [enqueueLoop, h0, ih]

lemma enqueueLoop_disconnect (responses : Nat → EnqueueResp) :
    ∀ (i fuel attempts k : Nat),
      (∀ j, j < i → responses (k + j) = .status5xx ∨
        responses (k + j) = .okBadJson) →
      responses (k + i) = .connError →
      attempts + i < NOTION_MAX_RETRIES →
      i + 1 ≤ fuel →
      enqueueLoop responses fuel attempts k = some (.error .requestError) := by
  intro i
  induction i with
  | zero =>
    intro fuel attempts k _ hc hlt hfuel
    cases fuel with
    | zero => omega
    | succ f =>
      have ha : attempts < NOTION_MAX_RETRIES := by omega
      rw [Nat.add_zero] at hc
      simp [enqueueLoop, ha, hc]
  | succ i ih =>
    intro fuel attempts k hpre hc hlt hfuel
    cases fuel with
    | zero => omega
    | succ f =>
      have ha : attempts < NOTION_MAX_RETRIES := by omega
      have h0 := hpre 0 (by omega)
      rw [Nat.add_zero] at h0
      have hshift : ∀ j, j < i → responses (k + 1 + j) = .status5xx ∨
          responses (k + 1 + j) = .okBadJson := by
        intro j hj
        have hp := hpre (j + 1) (by omega)
        rwa [show k + (j + 1) = k + 1 + j by omega] at hp
      have hc2 : responses (k + 1 + i) = .connError := by
        rwa [show k + (i + 1) = k + 1 + i by omega] at hc
      rcases h0 with h0 | h0
      · have hstep : enqueueLoop responses (f + 1) attempts k
            = enqueueLoop responses f (attempts + 1) (k + 1) := by
          simp [enqueueLoop, ha, h0]
        rw [hstep]
        exact ih f (attempts + 1) (k + 1) hshift hc2 (by omega) (by omega)
      · have hstep : enqueueLoop responses (f + 1) attempts k
            = enqueueLoop responses f attempts (k + 1) := by
          simp [enqueueLoop, ha, h0]
        rw [hstep]
        exact ih f attempts (k + 1) hshift hc2 (by omega) (by omega)

/-- The poll-loop responses that neither return nor raise: a JSON decode
failure, a body without `results`, a first result without `error` or
`status`, and a status whose `type` is not `complete`. -/
def pollRetriable (r : PollResp) : Prop :=
  r = .badJson ∨ r = .noResults ∨ r = .neitherKey ∨
    ∃ t u, r = .statusResult t u ∧ ¬(t = "complete")

lemma pollLoop_disconnect (responses : Nat → PollResp) :
    ∀ (i remaining k : Nat),
      (∀ j, j < i → pollRetriable (responses (k + j))) →
      responses (k + i) = .connError →
      i < remaining →
      pollLoop responses remaining k = .error .requestError := by
  intro i
  induction i with
  | zero =>
    intro remaining k _ hc hlt
    cases remaining with
    | zero => omega
    | succ m =>
      rw [Nat.add_zero] at hc
      simp [pollLoop, hc]
  | succ i ih =>
    intro remaining k hpre hc hlt
    cases remaining with
    | zero => omega
    | succ m =>
      have h0 := hpre 0 (by omega)
      rw [Nat.add_zero] at h0
      have hshift : ∀ j, j < i → pollRetriable (responses (k + 1 + j)) := by
        intro j hj
        have hp := hpre (j + 1) (by omega)
        rwa [show k + (j + 1) = k + 1 + j by omega] at hp
      have hc2 : responses (k + 1 + i) = .connError := by
        rwa [show k + (i + 1) = k + 1 + i by omega] at hc
      have hstep : pollLoop responses (m + 1) k
          = pollLoop responses m (k + 1) := by
        rcases h0 with h | h | h | ⟨t, u, h, ht⟩
        · simp [pollLoop, h]
        · simp [pollLoop, h]
        · simp [pollLoop, h]
        · simp [pollLoop, h, ht]
      rw [hstep]
      exact ih m (k + 1) hshift hc2 (by omega)

/-- C3 (amended): a connection-level fault (reset, timeout,
chunked-transfer interruption) hitting ANY request of either phase —
the i-th, after any sequence of transient retries (5xx or bad JSON for
enqueue; bad JSON, missing keys or a non-`complete` status for poll)
that leaves the retry budget unexhausted — is NOT retried: both loops
catch the exception and immediately re-raise it as
`NotionClientError('Request error')`, surfacing it to the caller at its
first occurrence regardless of the remaining budget. -/
theorem C3_disconnect_surfaced_immediately :
    (∀ (responses : Nat → EnqueueResp) (i fuel : Nat),
        (∀ j, j < i → responses j = .status5xx ∨ responses j = .okBadJson) →
        responses i = .connError →
        i < NOTION_MAX_RETRIES →
        i + 1 ≤ fuel →
        enqueueExportTask responses fuel = some (.error .requestError)) ∧
    (∀ (responses : Nat → PollResp) (i : Nat),
        (∀ j, j < i → pollRetriable (responses j)) →
        responses i = .connError →
        i < NOTION_MAX_RETRIES →
        getTaskResult responses = .error .requestError) := by
  constructor
  · intro responses i fuel hpre hc hbudget hfuel
    have h := enqueueLoop_disconnect responses i fuel 0 0
      (by simpa using hpre) (by simpa using hc) (by omega) hfuel
    simpa [enqueueExportTask] using h
  · intro responses i hpre hc hbudget
    exact pollLoop_disconnect responses i NOTION_MAX_RETRIES 0
      (by simpa using hpre) (by simpa using hc) hbudget

/-- Enqueue oracle whose first request hits a connection fault and whose
retries would all succeed. -/
def c3EnqResponses : Nat → EnqueueResp := fun i =>
  if i = 0 then .connError else .okJson "task-id"

/-- Poll oracle whose first request hits a connection fault and whose
retries would all report `complete`. -/
def c3PollResponses : Nat → PollResp := fun i =>
  if i = 0 then .connError else .statusResult "complete" "https://example.invalid/a.zip"

/-- C3 counterexample: with the full retry budget available and a single
transient disconnect on the first request (every retry would succeed),
both phases surface the `Request error` to the caller instead of
retrying — refuting the claim that such a fault is retried and never
surfaced before the budget is exhausted. -/
theorem C3_counterexample :
    enqueueExportTask c3EnqResponses NOTION_MAX_RETRIES
        = some (.error .requestError) ∧
    getTaskResult c3PollResponses = .error .requestError :=
  ⟨rfl, rfl⟩

/-- Enqueue oracle: two 5xx responses, then a connection fault, then
requests that would all succeed. -/
def c3EnqMid : Nat → EnqueueResp := fun i =>
  if i < 2 then .status5xx
  else if i = 2 then .connError
  else .okJson "task-id"

/-- Poll oracle: two in-progress statuses, then a connection fault, then
requests that would all report `complete`. -/
def c3PollMid : Nat → PollResp := fun i =>
  if i < 2 then .statusResult "progress" ""
  else if i = 2 then .connError
  else .statusResult "complete" "https://example.invalid/a.zip"

/-- C3 witness: the amended theorem applied to concrete oracles whose
disconnect strikes mid-phase — on the third request, after two
transient retries, with 598 of the 600 budget still unspent. -/
theorem C3_witness :
    enqueueExportTask c3EnqMid NOTION_MAX_RETRIES
        = some (.error .requestError) ∧
    getTaskResult c3PollMid = .error .requestError :=
  ⟨C3_disconnect_surfaced_immediately.1 c3EnqMid 2 NOTION_MAX_RETRIES
      (by decide) (by decide) (by decide) (by decide),
   C3_disconnect_surfaced_immediately.2 c3PollMid 2
      (by intro j hj
          interval_cases j <;>
            exact Or.inr (Or.inr (Or.inr ⟨"progress", "", rfl, by decide⟩)))
      (by decide) (by decide)⟩

/-! ### Lemmas about the cloze rewriting -/

lemma clozeScan_count (buf : List String) (n : Nat) :
    (clozeScan buf n).2 = n + buf.count "<code>" := by
  induction buf generalizing n with
  | nil => simp [clozeScan]
  | cons s rest ih =>
    by_cases h1 : s = "<code>"
    · subst h1
      simp only [clozeScan, if_pos rfl, List.count_cons, beq_self_eq_true,
        if_true]
      rw [ih]
      omega
    · have hs : ¬(("<code>" : String) = s) := fun he => h1 he.symm
      by_cases h2 : s = "</code>"
      · subst h2
        simp only [clozeScan, if_neg h1, if_pos rfl, List.count_cons]
        rw [ih]
        simp [hs]
      · simp only [clozeScan, if_neg h1, if_neg h2, List.count_cons]
        rw [ih]
        simp [hs, h1]

lemma clozeScan_length (buf : List String) (n : Nat) :
    (clozeScan buf n).1.length = buf.length := by
  induction buf generalizing n with
  | nil => simp [clozeScan]
  | cons s rest ih =>
    by_cases h1 : s = "<code>"
    · subst h1; simp [clozeScan, ih]
    · by_cases h2 : s = "</code>"
      · subst h2; simp [clozeScan, h1, ih]
      · simp [clozeScan, h1, h2, ih]

lemma clozeScan_get (buf : List String) (n i : Nat) :
    ((clozeScan buf n).1)[i]? = (buf[i]?).map (fun s =>
      if s = "<code>" then mkCloze (n + 1 + (buf.take i).count "<code>")
      else if s = "</code>" then clozeClose else s) := by
  induction buf generalizing n i with
  | nil => simp [clozeScan]
  | cons s rest ih =>
    cases i with
    | zero =>
      by_cases h1 : s = "<code>"
      · subst h1; simp [clozeScan]
      · by_cases h2 : s = "</code>"
        · subst h2; simp [clozeScan, h1]
        · simp [clozeScan, h1, h2]
    | succ j =>
      by_cases h1 : s = "<code>"
      · subst h1
        have hL : ((clozeScan ("<code>" :: rest) n).1)[j + 1]? =
            ((clozeScan rest (n + 1)).1)[j]? := by
          simp [clozeScan]
        rw [hL, ih, List.getElem?_cons_succ, List.take_succ_cons,
          List.count_cons]
        simp only [beq_self_eq_true, if_true]
        congr 1
        funext t
        by_cases ht : t = "<code>"
        · simp only [ht, if_pos rfl]
          exact congrArg mkCloze (by omega)
        · simp [ht]
      · have hs : ¬(("<code>" : String) = s) := fun he => h1 he.symm
        by_cases h2 : s = "</code>"
        · subst h2
          have hL : ((clozeScan ("</code>" :: rest) n).1)[j + 1]? =
              ((clozeScan rest n).1)[j]? := by
            simp [clozeScan, h1]
          rw [hL, ih, List.getElem?_cons_succ, List.take_succ_cons,
            List.count_cons]
          simp [hs]
        · have hL : ((clozeScan (s :: rest) n).1)[j + 1]? =
              ((clozeScan rest n).1)[j]? := by
            simp [clozeScan, h1, h2]
          rw [hL, ih, List.getElem?_cons_succ, List.take_succ_cons,
            List.count_cons]
          simp [hs, h1]

lemma getData_back_none_iff (st : ExtractorState) (note : AnkiNote)
    (h : getData st = .ok (some note)) :
    (note.back = none ↔ 0 < st.clozesCount) := by
  simp only [getData] at h
  by_cases hc : 0 < st.clozesCount
  · rw [if_pos hc] at h
    cases hf : st.noteData.front with
    | none => rw [hf] at h; simp at h
    | some f =>
      rw [hf] at h
      simp only [Except.ok.injEq, Option.some.injEq] at h
      subst h
      simpa using hc
  · rw [if_neg hc] at h
    cases hs : stripTrailing st.buffer with
    | none => rw [hs] at h; simp at h
    | some buf =>
      rw [hs] at h
      cases hf : st.noteData.front with
      | none => rw [hf] at h; simp at h
      | some f =>
        rw [hf] at h
        simp only [Except.ok.injEq, Option.some.injEq] at h
        subst h
        simp [hc]

lemma handleEndtag_summary (st st2 : ExtractorState)
    (hL : st.inLatex = false) (hcap : st.captureTag = true)
    (h : handleEndtag st "summary" = .ok st2) :
    st2.clozesCount = st.clozesCount + st.buffer.count "<code>" ∧
    st2.noteData.front = some (concatStrs (clozeScan st.buffer st.clozesCount).1) ∧
    st2.buffer = [] := by
  simp only [handleEndtag, hL, hcap, Bool.false_eq_true, false_and, if_false,
    Bool.true_eq_false, reduceIte, Except.ok.injEq] at h
  subst h
  exact ⟨clozeScan_count st.buffer st.clozesCount, rfl, rfl⟩

/-- A filesystem model on which every file is readable (and empty). -/
def fsTotal : String → Option (List Nat) := fun _ => some []

/-- C1: cloze invariant of the extracted record.  Part one: a record
returned by `get_data` after a run has `back` absent exactly when the
cloze counter is positive (so zero `<code>` pairs give a present,
possibly empty, back).  Part two: the `</summary>` rewriting loop, run
on a front buffer, numbers the opening markers sequentially in order of
first appearance — the token at position `i` becomes the cloze opener
numbered one plus the number of `<code>` tokens occurring earlier,
closing tokens become the closer, everything else is unchanged — and
increases the cloze counter by exactly the number of `<code>` tokens.
Part three: the `</summary>` handler commits that rewritten buffer as
`front`, adds the buffer's `<code>` count to the cloze counter, and
clears the buffer. -/
theorem C1_cloze_back_invariant :
    (∀ (fs : String → Option (List Nat)) (bd : String) (es : List Event)
        (st : ExtractorState) (note : AnkiNote),
        processEvents fs (mkInit bd) es = .ok st →
        getData st = .ok (some note) →
        (note.back = none ↔ 0 < st.clozesCount)) ∧
    (∀ (buf : List String) (n : Nat),
        (clozeScan buf n).2 = n + buf.count "<code>" ∧
        ∀ i : Nat, ((clozeScan buf n).1)[i]? = (buf[i]?).map (fun s =>
          if s = "<code>" then mkCloze (n + 1 + (buf.take i).count "<code>")
          else if s = "</code>" then clozeClose else s)) ∧
    (∀ st st2 : ExtractorState, st.inLatex = false → st.captureTag = true →
        handleEndtag st "summary" = .ok st2 →
        st2.clozesCount = st.clozesCount + st.buffer.count "<code>" ∧
        st2.noteData.front
          = some (concatStrs (clozeScan st.buffer st.clozesCount).1) ∧
        st2.buffer = []) :=
  ⟨fun _ _ _ st note _ h2 => getData_back_none_iff st note h2,
   fun buf n => ⟨clozeScan_count buf n, clozeScan_get buf n⟩,
   handleEndtag_summary⟩

/-- Event stream of a toggle fragment whose front region carries one
`<code>`/`</code>` pair. -/
def c1Events : List Event :=
  [ .startTag "ul" [("id", some "g"), ("class", some "toggle")]
  , .startTag "li" []
  , .startTag "details" [("open", some "")]
  , .startTag "summary" []
  , .textData "Q "
  , .startTag "code" []
  , .textData "X"
  , .endTag "code"
  , .endTag "summary"
  , .endTag "details"
  , .endTag "li"
  , .endTag "ul" ]

/-- Extractor state after feeding `c1Events`. -/
def c1State : ExtractorState :=
  { baseDir := "."
    noteData := { front := some "Q \x7b\x7bc1::X\x7d\x7d", tags := none, images := none }
    buffer := ["</details>", "</li>", "</ul>"]
    collectingStarted := true
    skippedBefore := 3
    captureTag := true
    inLatex := false
    skippedInLatex := 0
    latexTags := none
    clozesCount := 1 }

/-- The note extracted from `c1Events`. -/
def c1Note : AnkiNote :=
  { front := "Q \x7b\x7bc1::X\x7d\x7d", back := none, tags := none
    source := none, images := none }

/-- C1 witness: the invariant evaluated on the concrete one-cloze
fragment — its record has `back` absent and its cloze counter is 1. -/
theorem C1_witness : c1Note.back = none ↔ 0 < c1State.clozesCount :=
  C1_cloze_back_invariant.1 fsTotal "." c1Events c1State c1Note rfl rfl

/-! ### C4: unrecognized wrappers -/

/-- Events: a summary front, then a disallowed `video` wrapper holding
text, an allow-listed `p` child and its text, all still inside the
wrapper. -/
def c4Events : List Event :=
  [ .startTag "summary" [], .endTag "summary"
  , .startTag "video" [], .textData "dropped"
  , .startTag "p" [], .textData "hello" ]

/-- C4 counterexample: content nested inside the unrecognized `video`
wrapper DOES reach the output buffer.  The claim says nothing nested
inside such a wrapper (including allow-listed children and their text)
appears in the buffer because children are not re-evaluated against the
allow-list; but after the wrapper only the immediate text `dropped` is
suppressed — the nested `p` start tag is re-evaluated, turns capture
back on, and `<p>` and `hello` are emitted. -/
theorem C4_counterexample :
    (processEvents fsTotal (mkInit "") c4Events).map ExtractorState.buffer
      = .ok ["<p>", "hello"] := rfl

/-- C4 (amended): while capturing outside LaTeX mode, a start tag that
is neither `summary` nor allow-listed is not emitted and switches
capture off, so the text directly inside it is dropped; but every
nested start tag is independently re-evaluated against the allow-list,
and an allow-listed (non-LaTeX-wrapper, non-image) child start tag
re-enables capture and is emitted — so suppression lasts only until
the next allow-listed start tag, not until the wrapper's matching end
tag.  While capture stays off, end tags (including the wrapper's own)
are likewise not emitted. -/
theorem C4_unrecognized_wrapper (fs : String → Option (List Nat))
    (st : ExtractorState) (tag : String)
    (attrs : List (String × Option String))
    (hcol : st.collectingStarted = true) (hlat : st.inLatex = false)
    (hsum : ¬(tag = "summary")) (hallow : ¬(tag ∈ ALLOWED_TAGS)) :
    handleStarttag fs st tag attrs = .ok { st with captureTag := false } ∧
    (∀ d, handleData { st with captureTag := false } d
        = { st with captureTag := false }) ∧
    (∀ (t2 : String) (a2 : List (String × Option String)),
      t2 ∈ ALLOWED_TAGS → ¬(t2 = "summary") → ¬(t2 = "img") →
      checkIfLatex t2 a2 = none →
      handleStarttag fs { st with captureTag := false } t2 a2
        = .ok { st with captureTag := true,
                        buffer := st.buffer ++ [renderTag t2 a2] }) ∧
    (∀ t3 : String, handleEndtag { st with captureTag := false } t3
        = .ok { st with captureTag := false }) := by
  refine ⟨?h1, ?h2, ?h3, ?h4⟩
  · simp [handleStarttag, hsum, hcol, hlat, hallow]
  · intro d
    simp [handleData]
  · intro t2 a2 ht2 hs2 hi2 hlx
    simp [handleStarttag, hs2, hcol, hlat, ht2, hlx, handleImg, hi2]
  · intro t3
    simp [handleEndtag, hlat]

/-- Extractor state right after the opening `summary` of a fragment. -/
def c4Mid : ExtractorState :=
  { mkInit "" with collectingStarted := true, captureTag := true }

/-- C4 witness: the amended theorem evaluated at the concrete `video`
wrapper with a `p` child. -/
theorem C4_witness :
    handleStarttag fsTotal c4Mid "video" [] = .ok { c4Mid with captureTag := false } ∧
    handleData { c4Mid with captureTag := false } "dropped"
      = { c4Mid with captureTag := false } ∧
    handleStarttag fsTotal { c4Mid with captureTag := false } "p" []
      = .ok { c4Mid with captureTag := true, buffer := c4Mid.buffer ++ [renderTag "p" []] } ∧
    handleEndtag { c4Mid with captureTag := false } "video"
      = .ok { c4Mid with captureTag := false } :=
  ⟨(C4_unrecognized_wrapper fsTotal c4Mid "video" [] rfl rfl (by decide)
      (by decide)).1,
   (C4_unrecognized_wrapper fsTotal c4Mid "video" [] rfl rfl (by decide)
      (by decide)).2.1 "dropped",
   (C4_unrecognized_wrapper fsTotal c4Mid "video" [] rfl rfl (by decide)
      (by decide)).2.2.1 "p" [] (by decide) (by decide) (by decide) rfl,
   (C4_unrecognized_wrapper fsTotal c4Mid "video" [] rfl rfl (by decide)
      (by decide)).2.2.2 "video"⟩

/-! ### Run invariants of the extractor -/

lemma handleImg_pres (fs : String → Option (List Nat)) (s s2 : ExtractorState)
    (t : String) (a : List (String × Option String))
    (h : handleImg fs s t a = .ok s2) :
    s2.baseDir = s.baseDir ∧
    s2.buffer = s.buffer ∧
    s2.collectingStarted = s.collectingStarted ∧
    s2.skippedBefore = s.skippedBefore ∧
    s2.captureTag = s.captureTag ∧
    s2.inLatex = s.inLatex ∧
    s2.skippedInLatex = s.skippedInLatex ∧
    s2.latexTags = s.latexTags ∧
    s2.clozesCount = s.clozesCount ∧
    s2.noteData.front = s.noteData.front ∧
    s2.noteData.tags = s.noteData.tags ∧
    ((∀ img ∈ s.noteData.images.getD [], ¬(img.src = "")) →
      ∀ img ∈ s2.noteData.images.getD [], ¬(img.src = "")) := by
  unfold handleImg at h
  split at h
  · cases hga : getAttrByName "src" a with
    | none => rw [hga] at h; simp at h
    | some src =>
      rw [hga] at h
      simp only at h
      split at h
      · simp at h
      · rename_i hsrc
        cases hfs : fs (s.baseDir ++ "/" ++ pyUnquote src) with
        | none => rw [hfs] at h; simp at h
        | some bytes =>
          rw [hfs] at h
          simp only [Except.ok.injEq] at h
          subst h
          refine ⟨rfl, rfl, rfl, rfl, rfl, rfl, rfl, rfl, rfl, rfl, rfl, ?_⟩
          intro hall img hmem
          simp only [Option.getD_some] at hmem
          rcases List.mem_append.mp hmem with hm | hm
          · exact hall img hm
          · rw [List.mem_singleton] at hm
            subst hm
            exact hsrc
  · simp only [Except.ok.injEq] at h
    subst h
    exact ⟨rfl, rfl, rfl, rfl, rfl, rfl, rfl, rfl, rfl, rfl, rfl, fun g => g⟩

lemma processEvent_pres (fs : String → Option (List Nat))
    (st st2 : ExtractorState) (e : Event)
    (h : processEvent fs st e = .ok st2) :
    (st.collectingStarted = true →
      st2.collectingStarted = true ∧ st2.skippedBefore = st.skippedBefore) ∧
    (∀ ts, st.noteData.tags = some ts → st2.noteData.tags = some ts) ∧
    ((st.inLatex = true → st.latexTags.isSome = true) →
      (st2.inLatex = true → st2.latexTags.isSome = true)) ∧
    ((∀ img ∈ st.noteData.images.getD [], ¬(img.src = "")) →
      ∀ img ∈ st2.noteData.images.getD [], ¬(img.src = "")) := by
  cases e with
  | textData d =>
    have hd : handleData st d = st2 := by
      simpa [processEvent] using h
    unfold handleData at hd
    split at hd
    · subst hd
      exact ⟨fun hc => ⟨hc, rfl⟩, fun ts hts => hts, fun g => g, fun g => g⟩
    · split at hd
      · rename_i hcond
        subst hd
        refine ⟨fun hc => ⟨hc, rfl⟩, ?_, fun g => g, fun g => g⟩
        intro ts hts
        rw [hts] at hcond
        exact absurd hcond.2.1 (by simp)
      · subst hd
        exact ⟨fun hc => ⟨hc, rfl⟩, fun ts hts => hts, fun g => g, fun g => g⟩
  | endTag t =>
    have hd : handleEndtag st t = .ok st2 := h
    unfold handleEndtag at hd
    split at hd
    · simp only [Except.ok.injEq] at hd
      subst hd
      exact ⟨fun hc => ⟨hc, rfl⟩, fun ts hts => hts,
        fun _ hlat => by simp at hlat, fun g => g⟩
    · repeat' first
        | split at hd
        | dsimp only at hd
      all_goals first
        | (subst hd
           exact ⟨fun hc => ⟨hc, rfl⟩, fun ts hts => hts, fun g => g, fun g => g⟩)
        | (simp only [Except.ok.injEq] at hd
           subst hd
           exact ⟨fun hc => ⟨hc, rfl⟩, fun ts hts => hts, fun g => g, fun g => g⟩)
        | simp at hd
  | startTag tag attrs =>
    have hd : handleStarttag fs st tag attrs = .ok st2 := h
    unfold handleStarttag at hd
    split at hd
    · simp only [Except.ok.injEq] at hd
      subst hd
      exact ⟨fun hc => ⟨rfl, rfl⟩, fun ts hts => hts, fun g => g, fun g => g⟩
    · split at hd
      · rename_i hns hnc
        simp only [Except.ok.injEq] at hd
        subst hd
        exact ⟨fun hc => absurd hnc (by simp [hc]), fun ts hts => hts,
          fun g => g, fun g => g⟩
      · split at hd
        · rename_i hlat
          split at hd
          · simp only [Except.ok.injEq] at hd
            subst hd
            exact ⟨fun hc => ⟨hc, rfl⟩, fun ts hts => hts,
              fun g _ => g hlat, fun g => g⟩
          · simp only [Except.ok.injEq] at hd
            subst hd
            exact ⟨fun hc => ⟨hc, rfl⟩, fun ts hts => hts,
              fun g _ => g hlat, fun g => g⟩
        · split at hd
          · simp only [Except.ok.injEq] at hd
            subst hd
            exact ⟨fun hc => ⟨hc, rfl⟩, fun ts hts => hts, fun g => g, fun g => g⟩
          · split at hd
            · rename_i lt hclx
              rcases handleImg_pres fs _ st2 tag attrs hd with
                ⟨_, _, hcol, hskip, _, _, _, hlt, _, _, htags, himg⟩
              refine ⟨fun hc => ⟨?_, ?_⟩, fun ts hts => ?_, fun _ _ => ?_,
                fun hall => himg hall⟩
              · rw [hcol]; exact hc
              · rw [hskip]
              · rw [htags]; exact hts
              · rw [hlt]; rfl
            · rcases handleImg_pres fs _ st2 tag attrs hd with
                ⟨_, _, hcol, hskip, _, hlatex, _, hlt, _, _, htags, himg⟩
              refine ⟨fun hc => ⟨?_, ?_⟩, fun ts hts => ?_, fun g hl => ?_,
                fun hall => himg hall⟩
              · rw [hcol]; exact hc
              · rw [hskip]
              · rw [htags]; exact hts
              · rw [hlt]
                exact g (hlatex ▸ hl)

lemma processEvents_append (fs : String → Option (List Nat))
    (es1 es2 : List Event) (st : ExtractorState) :
    processEvents fs st (es1 ++ es2) =
      (processEvents fs st es1).bind (fun st1 => processEvents fs st1 es2) := by
  induction es1 generalizing st with
  | nil => simp [processEvents, Except.bind]
  | cons e rest ih =>
    simp only [List.cons_append, processEvents]
    cases processEvent fs st e with
    | error err => simp [Except.bind]
    | ok st1 => simp [Except.bind, ih]

lemma processEvents_pres (fs : String → Option (List Nat))
    (es : List Event) (st st2 : ExtractorState)
    (h : processEvents fs st es = .ok st2) :
    (st.collectingStarted = true →
      st2.collectingStarted = true ∧ st2.skippedBefore = st.skippedBefore) ∧
    (∀ ts, st.noteData.tags = some ts → st2.noteData.tags = some ts) ∧
    ((st.inLatex = true → st.latexTags.isSome = true) →
      (st2.inLatex = true → st2.latexTags.isSome = true)) ∧
    ((∀ img ∈ st.noteData.images.getD [], ¬(img.src = "")) →
      ∀ img ∈ st2.noteData.images.getD [], ¬(img.src = "")) := by
  induction es generalizing st with
  | nil =>
    simp only [processEvents, Except.ok.injEq] at h
    subst h
    exact ⟨fun hc => ⟨hc, rfl⟩, fun ts hts => hts, fun g => g, fun g => g⟩
  | cons e rest ih =>
    simp only [processEvents] at h
    cases he : processEvent fs st e with
    | error err => rw [he] at h; simp [Except.bind] at h
    | ok st1 =>
      rw [he] at h
      simp only [Except.bind] at h
      rcases processEvent_pres fs st st1 e he with ⟨p1, p2, p3, p4⟩
      rcases ih st1 h with ⟨q1, q2, q3, q4⟩
      refine ⟨fun hc => ?_, fun ts hts => q2 ts (p2 ts hts),
        fun g => q3 (p3 g), fun g => q4 (p4 g)⟩
      have r := p1 hc
      have s := q1 r.1
      exact ⟨s.1, s.2.trans r.2⟩

lemma noStart_noop (fs : String → Option (List Nat)) (es : List Event)
    (st : ExtractorState)
    (hall : es.all (fun e => !e.isStart) = true)
    (hcap : st.captureTag = false) (hlat : st.inLatex = false) :
    processEvents fs st es = .ok st := by
  induction es with
  | nil => rfl
  | cons e rest ih =>
    simp only [List.all_cons, Bool.and_eq_true] at hall
    cases e with
    | startTag t a => simp [Event.isStart] at hall
    | textData d =>
      have h1 : processEvent fs st (.textData d) = .ok st := by
        simp [processEvent, handleData, hcap]
      simp only [processEvents, h1, Except.bind]
      exact ih hall.2
    | endTag t =>
      have h1 : processEvent fs st (.endTag t) = .ok st := by
        simp [processEvent, handleEndtag, hlat, hcap]
      simp only [processEvents, h1, Except.bind]
      exact ih hall.2

lemma getData_tags (st : ExtractorState) (note : AnkiNote)
    (h : getData st = .ok (some note)) : note.tags = st.noteData.tags := by
  simp only [getData] at h
  by_cases hc : 0 < st.clozesCount
  · rw [if_pos hc] at h
    cases hf : st.noteData.front with
    | none => rw [hf] at h; simp at h
    | some f =>
      rw [hf] at h
      simp only [Except.ok.injEq, Option.some.injEq] at h
      subst h; rfl
  · rw [if_neg hc] at h
    cases hs : stripTrailing st.buffer with
    | none => rw [hs] at h; simp at h
    | some buf =>
      rw [hs] at h
      cases hf : st.noteData.front with
      | none => rw [hf] at h; simp at h
      | some f =>
        rw [hf] at h
        simp only [Except.ok.injEq, Option.some.injEq] at h
        subst h; rfl

/-- C9: a data chunk beginning with `#`, seen in the front region
right after the `summary` start tag (hence while capturing, outside
LaTeX sub-mode, with no tag set recorded yet), is consumed as the tag
list — the chunk is split on `#`, stripped, empty pieces dropped, the
buffer is left untouched — and no later event can override or extend
the recorded tag set, which is also the tag set of any record
`get_data` returns for the run. -/
theorem C9_leading_hash_tags (fs : String → Option (List Nat)) (bd : String)
    (a : List (String × Option String)) (d : String)
    (pre rest : List Event) (st : ExtractorState)
    (hpre : pre.all (fun e => !e.isStart) = true)
    (hhash : pyStartsWith d "#" = true)
    (hrun : processEvents fs (mkInit bd)
        (pre ++ .startTag "summary" a :: .textData d :: rest) = .ok st) :
    processEvents fs (mkInit bd) (pre ++ [.startTag "summary" a, .textData d])
      = .ok { mkInit bd with collectingStarted := true, captureTag := true, noteData := { front := none, tags := some (splitTags d), images := none } } ∧
    st.noteData.tags = some (splitTags d) ∧
    (∀ note, getData st = .ok (some note) → note.tags = some (splitTags d)) := by
  have hnop := noStart_noop fs pre (mkInit bd) hpre rfl rfl
  have hsum : processEvent fs (mkInit bd) (.startTag "summary" a)
      = .ok { mkInit bd with collectingStarted := true, captureTag := true } := by
    simp [processEvent, handleStarttag]
  have hdata : processEvent fs
      { mkInit bd with collectingStarted := true, captureTag := true }
      (.textData d)
      = .ok { mkInit bd with collectingStarted := true, captureTag := true, noteData := { front := none, tags := some (splitTags d), images := none } } := by
    simp [processEvent, handleData, hhash, mkInit]
  have hmid : processEvents fs (mkInit bd)
      (pre ++ [.startTag "summary" a, .textData d])
      = .ok { mkInit bd with collectingStarted := true, captureTag := true, noteData := { front := none, tags := some (splitTags d), images := none } } := by
    rw [processEvents_append, hnop]
    simp only [Except.bind, processEvents, hsum, hdata]
  have htail : processEvents fs
      { mkInit bd with collectingStarted := true, captureTag := true, noteData := { front := none, tags := some (splitTags d), images := none } }
      rest = .ok st := by
    rw [show pre ++ .startTag "summary" a :: .textData d :: rest
          = (pre ++ [.startTag "summary" a, .textData d]) ++ rest by simp,
        processEvents_append, hmid] at hrun
    simpa [Except.bind] using hrun
  have htags : st.noteData.tags = some (splitTags d) :=
    (processEvents_pres fs rest _ st htail).2.1 (splitTags d) rfl
  exact ⟨hmid, htags, fun note hnote => (getData_tags st note hnote).trans htags⟩

/-- Final extractor state of the concrete C9 run. -/
def c9State : ExtractorState :=
  { baseDir := ""
    noteData := { front := some "", tags := some ["tag1", "tag2"], images := none }
    buffer := []
    collectingStarted := true
    skippedBefore := 0
    captureTag := true
    inLatex := false
    skippedInLatex := 0
    latexTags := none
    clozesCount := 0 }

/-- C9 witness: the theorem evaluated on a fragment whose front begins
with the data chunk `#tag1 #tag2`; the recorded tag set is exactly
`["tag1", "tag2"]` and the chunk is not emitted into the buffer. -/
theorem C9_witness :
    processEvents fsTotal (mkInit "")
        ([] ++ [.startTag "summary" [], .textData "#tag1 #tag2"])
      = .ok { mkInit "" with collectingStarted := true, captureTag := true, noteData := { front := none, tags := some (splitTags "#tag1 #tag2"), images := none } } ∧
    c9State.noteData.tags = some (splitTags "#tag1 #tag2") ∧
    splitTags "#tag1 #tag2" = ["tag1", "tag2"] :=
  ⟨(C9_leading_hash_tags fsTotal "" [] "#tag1 #tag2" []
      [.endTag "summary"] c9State rfl rfl rfl).1,
   (C9_leading_hash_tags fsTotal "" [] "#tag1 #tag2" []
      [.endTag "summary"] c9State rfl rfl rfl).2.1,
   by decide⟩

lemma pyReplace_empty (pat rep : String) (hp : ¬(pat = "")) :
    pyReplace "" pat rep = "" := by
  rw [pyReplace, if_neg hp]
  rfl

lemma rewriteImages_empty (imgs : List AnkiImage)
    (h : ∀ img ∈ imgs, ¬(img.src = "")) : rewriteImages imgs "" = "" := by
  induction imgs with
  | nil => rfl
  | cons img rest ih =>
    simp only [rewriteImages]
    rw [pyReplace_empty _ _ (h img (List.mem_cons_self img rest))]
    exact ih (fun i hi => h i (List.mem_cons_of_mem _ hi))

lemma getData_back_empty (st : ExtractorState) (note : AnkiNote)
    (hskip : st.skippedBefore = 0) (hclz : st.clozesCount = 0)
    (himgs : ∀ img ∈ st.noteData.images.getD [], ¬(img.src = ""))
    (h : getData st = .ok (some note)) : note.back = some "" := by
  simp only [getData] at h
  rw [if_neg (by omega : ¬(0 < st.clozesCount))] at h
  cases hs : stripTrailing st.buffer with
  | none => rw [hs] at h; simp at h
  | some buf =>
    rw [hs] at h
    dsimp only at h
    rw [if_pos hskip] at h
    have h0 : concatStrs ([] : List String) = "" := rfl
    rw [h0, rewriteImages_empty _ himgs] at h
    have hb : pyReplace (pyReplace (emptyPSub "") "class=\"\"" "") "<p >" "<p>"
        = "" := rfl
    rw [hb] at h
    cases hf : st.noteData.front with
    | none => rw [hf] at h; simp at h
    | some f =>
      rw [hf] at h
      simp only [Except.ok.injEq, Option.some.injEq] at h
      subst h
      rfl

/-- C10: in a run whose very first start tag is `summary` (so nothing
was skipped before collection began, `skipped_before = 0`), any
non-cloze record the extractor returns has `back` equal to the empty
string, whatever back-region content followed: `get_data` slices the
buffer with `buffer[: -0]`, i.e. `buffer[:0]`, and so drops it
entirely. -/
theorem C10_first_summary_empty_back (fs : String → Option (List Nat))
    (bd : String) (a : List (String × Option String))
    (pre rest : List Event) (st : ExtractorState) (note : AnkiNote)
    (hpre : pre.all (fun e => !e.isStart) = true)
    (hrun : processEvents fs (mkInit bd)
        (pre ++ .startTag "summary" a :: rest) = .ok st)
    (hclz : st.clozesCount = 0)
    (hget : getData st = .ok (some note)) :
    note.back = some "" := by
  have hnop := noStart_noop fs pre (mkInit bd) hpre rfl rfl
  have hsum : processEvent fs (mkInit bd) (.startTag "summary" a)
      = .ok { mkInit bd with collectingStarted := true, captureTag := true } := by
    simp [processEvent, handleStarttag]
  rw [processEvents_append, hnop] at hrun
  simp only [Except.bind, processEvents, hsum] at hrun
  rcases processEvents_pres fs rest _ st hrun with ⟨p1, _, _, p4⟩
  have hskip : st.skippedBefore = 0 := (p1 rfl).2
  have himgs : ∀ img ∈ st.noteData.images.getD [], ¬(img.src = "") :=
    p4 (fun img hmem => absurd hmem (by simp [mkInit]))
  exact getData_back_empty st note hskip hclz himgs hget

/-- Final extractor state of the concrete C10 run. -/
def c10State : ExtractorState :=
  { baseDir := "."
    noteData := { front := some "Q", tags := none, images := none }
    buffer := ["<p>", "A", "</p>"]
    collectingStarted := true
    skippedBefore := 0
    captureTag := true
    inLatex := false
    skippedInLatex := 0
    latexTags := none
    clozesCount := 0 }

/-- The record extracted in the concrete C10 run. -/
def c10Note : AnkiNote :=
  { front := "Q", back := some "", tags := none, source := none, images := none }

/-- C10 witness: a fragment starting directly with `summary` and whose
back region holds `<p>A</p>` still yields `back = ""`. -/
theorem C10_witness : c10Note.back = some "" :=
  C10_first_summary_empty_back fsTotal "." [] []
    [.textData "Q", .endTag "summary",
     .startTag "p" [], .textData "A", .endTag "p"]
    c10State c10Note rfl rfl rfl rfl

/-- Condition under which an event cannot make the image-harvesting
code raise: any start tag that is an `img` must carry a non-empty
`src`. -/
def eventImgOk : Event → Bool
  | .startTag t attrs =>
    if t = "img" then
      match getAttrByName "src" attrs with
      | some s => !(s == "")
      | none => false
    else true
  | _ => true

lemma handleImg_ok (fs : String → Option (List Nat)) (st : ExtractorState)
    (tag : String) (attrs : List (String × Option String))
    (hfs : ∀ p, (fs p).isSome = true)
    (himg : tag = "img" → ∃ s, getAttrByName "src" attrs = some s ∧ ¬(s = "")) :
    ∃ st2, handleImg fs st tag attrs = .ok st2 := by
  unfold handleImg
  by_cases htag : tag = "img"
  · rw [if_pos htag]
    obtain ⟨s, hs1, hs2⟩ := himg htag
    rw [hs1]
    dsimp only
    rw [if_neg hs2]
    have hsp := hfs (st.baseDir ++ "/" ++ pyUnquote s)
    cases hfsv : fs (st.baseDir ++ "/" ++ pyUnquote s) with
    | none => simp [hfsv] at hsp
    | some bytes => exact ⟨_, rfl⟩
  · rw [if_neg htag]; exact ⟨_, rfl⟩

lemma handleEndtag_ok (st : ExtractorState) (t : String)
    (hinv : st.inLatex = true → st.latexTags.isSome = true) :
    ∃ st2, handleEndtag st t = .ok st2 := by
  unfold handleEndtag
  repeat' first | split | dsimp only
  all_goals try exact ⟨_, rfl⟩
  all_goals simp_all

lemma handleStarttag_ok (fs : String → Option (List Nat))
    (st : ExtractorState) (tag : String)
    (attrs : List (String × Option String))
    (hfs : ∀ p, (fs p).isSome = true)
    (himg : tag = "img" → ∃ s, getAttrByName "src" attrs = some s ∧ ¬(s = "")) :
    ∃ st2, handleStarttag fs st tag attrs = .ok st2 := by
  unfold handleStarttag
  repeat' first | split | dsimp only
  all_goals try exact ⟨_, rfl⟩
  all_goals exact handleImg_ok fs _ tag attrs hfs himg

lemma processEvent_ok (fs : String → Option (List Nat))
    (st : ExtractorState) (e : Event)
    (hinv : st.inLatex = true → st.latexTags.isSome = true)
    (hfs : ∀ p, (fs p).isSome = true)
    (he : eventImgOk e = true) :
    ∃ st2, processEvent fs st e = .ok st2 := by
  cases e with
  | textData d => exact ⟨_, rfl⟩
  | endTag t => exact handleEndtag_ok st t hinv
  | startTag tag attrs =>
    refine handleStarttag_ok fs st tag attrs hfs ?_
    intro htag
    subst htag
    simp only [eventImgOk, if_pos rfl] at he
    cases hga : getAttrByName "src" attrs with
    | none => rw [hga] at he; simp at he
    | some s =>
      rw [hga] at he
      simp at he
      exact ⟨s, rfl, by simpa using he⟩

lemma processEvents_ok (fs : String → Option (List Nat))
    (es : List Event) (st : ExtractorState)
    (hinv : st.inLatex = true → st.latexTags.isSome = true)
    (hfs : ∀ p, (fs p).isSome = true)
    (hall : es.all eventImgOk = true) :
    ∃ st2, processEvents fs st es = .ok st2 := by
  induction es generalizing st with
  | nil => exact ⟨st, rfl⟩
  | cons e rest ih =>
    simp only [List.all_cons, Bool.and_eq_true] at hall
    obtain ⟨st1, h1⟩ := processEvent_ok fs st e hinv hfs hall.1
    have hinv1 := (processEvent_pres fs st st1 e h1).2.2.1 hinv
    obtain ⟨st2, h2⟩ := ih st1 hinv1 hall.2
    refine ⟨st2, ?_⟩
    simp only [processEvents, h1, Except.bind]
    exact h2

lemma getData_cases (st : ExtractorState) :
    (∃ r, getData st = .ok r) ∨
    (getData st = .error .indexError ∧ st.clozesCount = 0 ∧
      stripTrailing st.buffer = none) := by
  by_cases hc : 0 < st.clozesCount
  · left
    cases hf : st.noteData.front with
    | none => exact ⟨none, by simp only [getData]; rw [if_pos hc, hf]⟩
    | some f => exact ⟨_, by simp only [getData]; rw [if_pos hc, hf]⟩
  · cases hs : stripTrailing st.buffer with
    | none =>
      right
      refine ⟨?_, by omega, rfl⟩
      simp only [getData]
      rw [if_neg hc, hs]
    | some buf =>
      left
      cases hf : st.noteData.front with
      | none => exact ⟨none, by simp only [getData]; rw [if_neg hc, hs]; dsimp only; rw [hf]⟩
      | some f => exact ⟨_, by simp only [getData]; rw [if_neg hc, hs]; dsimp only; rw [hf]⟩

/-- True on `.ok` results (used to state witnesses about runs not
raising). -/
def exceptIsOk : Except ParseError ExtractorState → Bool
  | .ok _ => true
  | .error _ => false

/-- C2 (amended): with every referenced image file readable and every
`img` tag carrying a non-empty `src`, feeding a fragment never raises —
except that a non-cloze fragment whose buffer is exhausted by the
trailing-newline cleanup of `get_data` (in particular the empty
fragment) raises `IndexError`; in every other case the extraction
returns a record or `none`. -/
theorem C2_raise_conditions (fs : String → Option (List Nat)) (bd : String)
    (es : List Event)
    (hfs : ∀ p, (fs p).isSome = true)
    (hall : es.all eventImgOk = true) :
    ∃ st, processEvents fs (mkInit bd) es = .ok st ∧
      ((∃ r, extractNote fs bd es = .ok r) ∨
        (extractNote fs bd es = .error .indexError ∧ st.clozesCount = 0 ∧
          stripTrailing st.buffer = none)) := by
  obtain ⟨st, hst⟩ := processEvents_ok fs es (mkInit bd)
    (by intro h; simp [mkInit] at h) hfs hall
  refine ⟨st, hst, ?_⟩
  have hx : extractNote fs bd es = getData st := by
    simp [extractNote, hst, Except.bind]
  rcases getData_cases st with ⟨r, hr⟩ | ⟨he, h0, hn⟩
  · exact Or.inl ⟨r, hx.trans hr⟩
  · exact Or.inr ⟨hx.trans he, h0, hn⟩

/-- C2 counterexample: the empty fragment — an internally inconsistent
fragment that leaves the buffer empty at close — makes the extraction
raise `IndexError` (`self._buffer[-1]` on an empty list), refuting the
claim that such inputs never raise and that an unreadable image is the
only raising condition. -/
theorem C2_counterexample : extractNote fsTotal "" [] = .error .indexError :=
  rfl

/-- Events of a well-formed fragment with front and back text. -/
def c2Events : List Event :=
  [.startTag "summary" [], .textData "hi", .endTag "summary",
   .textData "body"]

/-- C2 witness: on a fragment satisfying the image conditions the run
itself never raises. -/
theorem C2_witness : exceptIsOk (processEvents fsTotal (mkInit "") c2Events)
    = true := by
  obtain ⟨st, hst, -⟩ :=
    C2_raise_conditions fsTotal "" c2Events (fun p => rfl) (by decide)
  rw [hst]
  rfl

/-! ### C5: LaTeX wrappers -/

/-- Well-nested event sequences: the shape of the rendering markup that
Notion places inside an equation wrapper. -/
inductive BalancedEv : List Event → Prop
  | nil : BalancedEv []
  | dataB (d : String) (rest : List Event) :
      BalancedEv rest → BalancedEv (Event.textData d :: rest)
  | tagB (t : String) (a : List (String × Option String))
      (inner rest : List Event) :
      BalancedEv inner → BalancedEv rest →
      BalancedEv (Event.startTag t a :: (inner ++ Event.endTag t :: rest))

/-- No start tag in the list would break out of LaTeX sub-mode
(`summary` flips collection on, `annotation` flips capture on). -/
def noReentry (es : List Event) : Bool :=
  es.all fun e =>
    match e with
    | .startTag t _ => !(t == "summary") && !(t == "annotation")
    | _ => true

lemma latexBody_noop (fs : String → Option (List Nat)) (es : List Event)
    (hb : BalancedEv es) :
    ∀ st : ExtractorState, noReentry es = true →
      st.collectingStarted = true → st.inLatex = true →
      st.captureTag = false →
      processEvents fs st es = .ok st := by
  induction hb with
  | nil => intro st _ _ _ _; rfl
  | dataB d rest hrest ih =>
    intro st hnr hcol hlat hcap
    simp only [noReentry, List.all_cons, Bool.and_eq_true] at hnr
    have h1 : processEvent fs st (.textData d) = .ok st := by
      simp [processEvent, handleData, hcap]
    simp only [processEvents, h1, Except.bind]
    exact ih st hnr.2 hcol hlat hcap
  | tagB t a inner rest hinner hrest ih1 ih2 =>
    intro st hnr hcol hlat hcap
    simp only [noReentry, List.all_cons, List.all_append,
      Bool.and_eq_true] at hnr
    have hts : ¬(t = "summary") := by simpa using hnr.1.1
    have hta : ¬(t = "annotation") := by simpa using hnr.1.2
    have hinnerAll : noReentry inner = true := by
      simpa [noReentry] using hnr.2.1
    have hrestAll : noReentry rest = true := by
      simpa [noReentry] using hnr.2.2
    have h1 : processEvent fs st (.startTag t a)
        = .ok { st with skippedInLatex := st.skippedInLatex + 1 } := by
      simp [processEvent, handleStarttag, hts, hcol, hlat, hta]
    have h2 : processEvents fs
        { st with skippedInLatex := st.skippedInLatex + 1 } inner
        = .ok { st with skippedInLatex := st.skippedInLatex + 1 } :=
      ih1 _ hinnerAll hcol hlat hcap
    have h3 : processEvent fs
        { st with skippedInLatex := st.skippedInLatex + 1 } (.endTag t)
        = .ok st := by
      simp [processEvent, handleEndtag, hcap, hlat]
      rw [← hcap, ← hlat]
    simp only [processEvents, h1, Except.bind]
    rw [processEvents_append, h2]
    simp only [Except.bind, processEvents, h3]
    exact ih2 st hrestAll hcol hlat hcap

lemma latexWrapper_run (fs : String → Option (List Nat))
    (st : ExtractorState) (wrapTag : String)
    (attrs annAttrs : List (String × Option String))
    (pre post : List Event) (d : String) (lt : String × String)
    (hcol : st.collectingStarted = true) (hcap : st.captureTag = true)
    (hlat : st.inLatex = false) (hskip : st.skippedInLatex = 0)
    (hw : wrapTag = "span" ∨ wrapTag = "figure")
    (hpre : BalancedEv pre) (hpost : BalancedEv post)
    (hnr1 : noReentry pre = true) (hnr2 : noReentry post = true)
    (hclx : checkIfLatex wrapTag attrs = some lt) :
    processEvents fs st
      (.startTag wrapTag attrs :: (pre ++ .startTag "annotation" annAttrs
        :: .textData d :: .endTag "annotation" :: (post ++ [.endTag wrapTag])))
      = .ok { st with buffer := st.buffer ++ [lt.1, d, lt.2],
                      latexTags := some lt } := by
  have hws : ¬(wrapTag = "summary") := by
    rcases hw with h | h <;> subst h <;> decide
  have hwi : ¬(wrapTag = "img") := by
    rcases hw with h | h <;> subst h <;> decide
  have hwa : wrapTag ∈ ALLOWED_TAGS := by
    rcases hw with h | h <;> subst h <;> decide
  have h1 : processEvent fs st (.startTag wrapTag attrs)
      = .ok { st with buffer := st.buffer ++ [lt.1], captureTag := false, inLatex := true, latexTags := some lt } := by
    simp [processEvent, handleStarttag, hws, hcol, hlat, hwa, hclx,
      handleImg, hwi]
  have h2 : processEvents fs
      { st with buffer := st.buffer ++ [lt.1], captureTag := false, inLatex := true, latexTags := some lt }
      pre
      = .ok { st with buffer := st.buffer ++ [lt.1], captureTag := false, inLatex := true, latexTags := some lt } :=
    latexBody_noop fs pre hpre _ hnr1 hcol rfl rfl
  have h3 : processEvent fs
      { st with buffer := st.buffer ++ [lt.1], captureTag := false, inLatex := true, latexTags := some lt }
      (.startTag "annotation" annAttrs)
      = .ok { st with buffer := st.buffer ++ [lt.1], captureTag := true, inLatex := true, latexTags := some lt, skippedInLatex := st.skippedInLatex + 1 } := by
    simp [processEvent, handleStarttag, hcol]
  have h4 : processEvent fs
      { st with buffer := st.buffer ++ [lt.1], captureTag := true, inLatex := true, latexTags := some lt, skippedInLatex := st.skippedInLatex + 1 }
      (.textData d)
      = .ok { st with buffer := (st.buffer ++ [lt.1]) ++ [d], captureTag := true, inLatex := true, latexTags := some lt, skippedInLatex := st.skippedInLatex + 1 } := by
    simp [processEvent, handleData]
  have h5 : processEvent fs
      { st with buffer := (st.buffer ++ [lt.1]) ++ [d], captureTag := true, inLatex := true, latexTags := some lt, skippedInLatex := st.skippedInLatex + 1 }
      (.endTag "annotation")
      = .ok { st with buffer := ((st.buffer ++ [lt.1]) ++ [d]) ++ [lt.2], captureTag := false, inLatex := true, latexTags := some lt } := by
    simp [processEvent, handleEndtag]
  have h6 : processEvents fs
      { st with buffer := ((st.buffer ++ [lt.1]) ++ [d]) ++ [lt.2], captureTag := false, inLatex := true, latexTags := some lt }
      post
      = .ok { st with buffer := ((st.buffer ++ [lt.1]) ++ [d]) ++ [lt.2], captureTag := false, inLatex := true, latexTags := some lt } :=
    latexBody_noop fs post hpost _ hnr2 hcol rfl rfl
  have h7 : processEvent fs
      { st with buffer := ((st.buffer ++ [lt.1]) ++ [d]) ++ [lt.2], captureTag := false, inLatex := true, latexTags := some lt }
      (.endTag wrapTag)
      = .ok { st with buffer := ((st.buffer ++ [lt.1]) ++ [d]) ++ [lt.2], captureTag := true, inLatex := false, latexTags := some lt } := by
    simp [processEvent, handleEndtag, hskip]
  simp only [processEvents, h1, Except.bind]
  rw [processEvents_append, h2]
  simp only [Except.bind, processEvents, h3, h4, h5]
  rw [processEvents_append, h6]
  simp only [Except.bind, processEvents, h7]
  rw [← hcap, ← hlat]
  simp [List.append_assoc]

/-- Event stream of one LaTeX wrapper: the wrapper start tag, arbitrary
well-nested rendering markup, the `annotation` element holding the
LaTeX source `d`, more well-nested rendering markup, and the wrapper's
matching end tag. -/
def latexFragment (wrapTag : String)
    (attrs annAttrs : List (String × Option String)) (pre : List Event)
    (d : String) (post : List Event) : List Event :=
  .startTag wrapTag attrs :: (pre ++ .startTag "annotation" annAttrs
    :: .textData d :: .endTag "annotation" :: (post ++ [.endTag wrapTag]))

/-- C5: while capturing, an allow-listed container (`span`/`figure`)
carrying the inline-equation marker class is replaced in the output by
the inline delimiter pair around exactly the text content of the nested
`annotation` tag — all other markup nested in the wrapper (well-nested
and not re-triggering `summary`/`annotation`) is discarded; a wrapper
carrying the block-equation marker class is replaced the same way with
the block delimiter pair. -/
theorem C5_latex_rewriting (fs : String → Option (List Nat))
    (st : ExtractorState) (wrapTag : String)
    (attrs annAttrs : List (String × Option String))
    (pre post : List Event) (d : String)
    (hcol : st.collectingStarted = true) (hcap : st.captureTag = true)
    (hlat : st.inLatex = false) (hskip : st.skippedInLatex = 0)
    (hw : wrapTag = "span" ∨ wrapTag = "figure")
    (hpre : BalancedEv pre) (hpost : BalancedEv post)
    (hnr1 : noReentry pre = true) (hnr2 : noReentry post = true) :
    (getAttrByName "class" attrs = some INLINE_LATEX_CLASS →
      processEvents fs st (latexFragment wrapTag attrs annAttrs pre d post)
        = .ok { st with buffer := st.buffer ++ [ANKI_INLINE_LATEX_TAGS.1, d, ANKI_INLINE_LATEX_TAGS.2], latexTags := some ANKI_INLINE_LATEX_TAGS }) ∧
    (getAttrByName "class" attrs = some BLOCK_LATEX_CLASS →
      processEvents fs st (latexFragment wrapTag attrs annAttrs pre d post)
        = .ok { st with buffer := st.buffer ++ [ANKI_BLOCK_LATEX_TAGS.1, d, ANKI_BLOCK_LATEX_TAGS.2], latexTags := some ANKI_BLOCK_LATEX_TAGS }) := by
  constructor
  · intro hcls
    have hclx : checkIfLatex wrapTag attrs = some ANKI_INLINE_LATEX_TAGS := by
      simp [checkIfLatex, hcls, hw, INLINE_LATEX_CLASS, BLOCK_LATEX_CLASS]
    exact latexWrapper_run fs st wrapTag attrs annAttrs pre post d _
      hcol hcap hlat hskip hw hpre hpost hnr1 hnr2 hclx
  · intro hcls
    have hclx : checkIfLatex wrapTag attrs = some ANKI_BLOCK_LATEX_TAGS := by
      simp [checkIfLatex, hcls, hw, BLOCK_LATEX_CLASS]
    exact latexWrapper_run fs st wrapTag attrs annAttrs pre post d _
      hcol hcap hlat hskip hw hpre hpost hnr1 hnr2 hclx

/-- Extractor state right after the opening `summary`, used by the C5
witness. -/
def c5State : ExtractorState :=
  { mkInit "" with collectingStarted := true, captureTag := true }

/-- Nested rendering markup used by the C5 witness. -/
def c5Pre : List Event :=
  [.startTag "mrow" [], .textData "junk", .endTag "mrow"]

/-- The C5 witness markup is well nested. -/
lemma c5Pre_balanced : BalancedEv c5Pre :=
  BalancedEv.tagB "mrow" [] [.textData "junk"] []
    (BalancedEv.dataB "junk" [] BalancedEv.nil) BalancedEv.nil

/-- C5 witness: a concrete inline-equation wrapper whose rendering
markup holds the text `junk` and whose annotation holds `E=mc^2`
contributes exactly `\(`, `E=mc^2`, `\)` to the buffer. -/
theorem C5_witness :
    processEvents fsTotal c5State
        (latexFragment "span" [("class", some "notion-text-equation-token")]
          [("encoding", some "application/x-tex")] c5Pre "E=mc^2" [])
      = .ok { c5State with buffer := c5State.buffer ++ ["\\(", "E=mc^2", "\\)"], latexTags := some ANKI_INLINE_LATEX_TAGS } :=
  (C5_latex_rewriting fsTotal c5State "span"
      [("class", some "notion-text-equation-token")]
      [("encoding", some "application/x-tex")] c5Pre [] "E=mc^2"
      rfl rfl rfl rfl (Or.inl rfl) c5Pre_balanced BalancedEv.nil rfl rfl).1
    rfl
